import Mathlib

/-!
A shallow embedding of the resilient HTTP request engine of the aghpu
repository (src/httpclient/client.go), together with theorems that check
the specification claims about it.

The embedding follows the Go source closely:
the `Cli` structure mirrors the `Cli` struct (client.go lines 26-39),
`ensureHeaders` mirrors the header-defaulting block of `Request`
(lines 165-183), `requestLoop` mirrors the send-and-retry loop
(lines 193-214), `Request` mirrors the whole of `Request`
(lines 157-235), and `fileExtCalc` with `getFilePost` mirror the part of
`GetFile` that runs once the HTTP exchange has succeeded (lines 295-327).
The external transport (the single call `c.cli.Do(req)` at line 197) is
modeled as an oracle mapping the attempt number to either a response or a
transport error; the caller-supplied error handler is modeled by the part
of it that the control flow of `Request` reads, namely the error value it
returns for a given attempt number and error message.  Logging is a
side effect that never influences the control flow of `Request`, so it is
not modeled there; the diagnostic dump call (line 226) is recorded in the
trace because claims speak about it.
-/

namespace Aghpu

/-- Go http.Header, modeled as an association list from canonical header
names to lists of values.  Go stores a map with unique keys; only the
`Get` and `Set` operations are used by the client. -/
abbrev Header := List (String × List String)

/-- Go http.Header.Get: the first value stored under the named key, or
the empty string when the key is absent or has no values. -/
def hGet : Header → String → String
  | [], _ => ""
  | (k, vs) :: rest, key =>
    if k = key then
      match vs with
      | [] => ""
      | v :: _ => v
    else hGet rest key

/-- Go http.Header.Set: replace the values stored under the named key by
the single given value, adding the entry when the key is absent. -/
def hSet : Header → String → String → Header
  | [], key, v => [(key, [v])]
  | (k, vs) :: rest, key, v =>
    if k = key then (key, [v]) :: rest else (k, vs) :: hSet rest key v

/-- An HTTP response as far as `Request` inspects it: the status code and
status line (line 230-231), the Content-Type header (read by `GetFile`
at line 302), the body bytes, and the outcome of reading the body stream
(`ioutil.ReadAll` at line 221, whose failure is modeled by `readErr`). -/
structure Response where
  statusCode : Nat
  status : String
  contentType : String
  body : String
  readErr : Option String
deriving DecidableEq

/-- Result of one call of the underlying transport `c.cli.Do(req)`
(client.go line 197): a response, or a transport error. -/
inductive DoResult where
  | ok (resp : Response)
  | err (e : String)
deriving DecidableEq

/-- The transport collaborator, as an oracle from the attempt number
(`tryN`, 1-based) to the outcome of that send. -/
abbrev Transport := Nat → DoResult

/-- The caller-supplied error handler (client.go line 42), modeled by the
only part of it that the control flow of `Request` reads: given the
attempt number and the error message of the failed attempt, it returns
`none` (the Go handler returned nil: keep retrying) or `some hErr`
(the Go handler returned its own error). -/
abbrev Handler := Nat → String → Option String

/-- The `Cli` struct (client.go lines 26-39).  The fields `id`, `dumpDir`,
the embedded `http.Client` and the logger are not modeled: none of them
influences the control flow the claims are about.  Note that the struct
has no mutex and no handler-active flag. -/
structure Cli where
  debug : Bool
  reqTries : Nat
  userAgent : String
  reqErrH : Option Handler
  reqNum : Nat
  currentURL : Option String

/-- The triple returned by `Request` (client.go line 157):
response, response body, error. -/
structure ReqReturn where
  resp : Option Response
  body : Option String
  err : Option String
deriving DecidableEq

/-- Outcome of the send-and-retry loop (client.go lines 195-214):
either an early `return` carrying an error (lines 206 and 211), or a
`break` with the response of the successful send (line 200).  `fuelOut`
is a modeling artifact marking that the recursion fuel ran out; with
`reqTries ≥ 1`, the value `New` always gives it (line 433 sets 10), the
loop runs at most `reqTries` iterations and the fuel used by `Request`
never runs out. -/
inductive LoopRes where
  | earlyRet (e : String)
  | success (resp : Response)
  | fuelOut
deriving DecidableEq

/-- Trace of the send-and-retry loop: its outcome, the number of send
attempts made, and the attempt numbers at which the caller error handler
was invoked. -/
structure LoopTrace where
  out : LoopRes
  attempts : Nat
  handlerCalls : List Nat
deriving DecidableEq

/-- The send-and-retry loop of `Request` (client.go lines 194-214),
parameterized by the current attempt number `tryN` and recursion fuel.
Per iteration: send (line 197); on success break (line 200); otherwise,
if `tryN` equals `reqTries`, return the error of this last attempt
verbatim (lines 205-207); otherwise, if a handler is configured, invoke
it, and when the handler itself fails, return the original error and the
handler error combined as by `fmt.Errorf("%v, %v", err, hErr)`
(lines 209-213); otherwise continue with the next attempt. -/
def requestLoop (c : Cli) (tr : Transport) : Nat → Nat → LoopTrace
  | _, 0 => ⟨.fuelOut, 0, []⟩
  | tryN, fuel + 1 =>
    match tr tryN with
    | .ok resp => ⟨.success resp, 1, []⟩
    | .err e =>
      if tryN = c.reqTries then
        ⟨.earlyRet e, 1, []⟩
      else
        match c.reqErrH with
        | none =>
          let t := requestLoop c tr (tryN + 1) fuel
          ⟨t.out, t.attempts + 1, t.handlerCalls⟩
        | some h =>
          match h tryN e with
          | some hErr => ⟨.earlyRet (e ++ ", " ++ hErr), 1, [tryN]⟩
          | none =>
            let t := requestLoop c tr (tryN + 1) fuel
            ⟨t.out, t.attempts + 1, tryN :: t.handlerCalls⟩

/-- The Accept-Language default value (client.go line 176). -/
def defaultAcceptLanguage : String := "en-US,en;q=0.9,ru;q=0.8,uk;q=0.7"

/-- One header-defaulting block of `Request` (for example lines 169-171):
set the named header to the given value exactly when `Get` currently
returns the empty string for it. -/
def setDefault (h : Header) (k v : String) : Header :=
  if hGet h k = "" then hSet h k v else h

/-- The header-defaulting part of `Request` (client.go lines 165-183):
each of User-Agent, Accept, Accept-Language and Cache-Control is set to
its default exactly when `Get` returns the empty string for it, and
Referer is set to the current URL under the same condition when a current
URL is tracked.  A nil header map is replaced by an empty one
(lines 166-168). -/
def ensureHeaders (c : Cli) (header : Option Header) : Header :=
  let h0 := header.getD []
  let h1 := setDefault h0 "User-Agent" c.userAgent
  let h2 := setDefault h1 "Accept" "*/*"
  let h3 := setDefault h2 "Accept-Language" defaultAcceptLanguage
  let h4 := setDefault h3 "Cache-Control" "max-age=0"
  match c.currentURL with
  | some cu => setDefault h4 "Referer" cu
  | none => h4

/-- One logical request as `Request` receives it: the target URL, the
outcome of `http.NewRequest` (lines 186-189; `some e` models a
construction failure for a malformed method or URL), and the transport
oracle for its attempts. -/
structure ReqSpec where
  u : String
  newReqErr : Option String
  tr : Transport

/-- Trace of one execution of `Request`: the returned triple, the number
of send attempts, the attempt numbers at which the error handler ran,
the dump-file numbers written by `DumpTransaction` (line 226; the file
name `%04d.txt` is determined by `reqNum`, and distinct numbers give
distinct names), the client state after the call, the headers actually
sent, and the fuel-exhaustion marker. -/
structure ReqTrace where
  ret : ReqReturn
  attempts : Nat
  handlerCalls : List Nat
  dumps : List Nat
  cli : Cli
  sentHeader : Header
  diverged : Bool

/-- The part of `Request` after the loop, as a function of the loop
outcome (client.go lines 215-234): on an early return the loop error is
passed through unchanged; on a break, the response body is read
(line 221, whose failure returns a wrapped read error together with the
response), and then an error is returned when the status code is at
least 400, still handing back the response and the body
(lines 230-234). -/
def loopRet (res : LoopRes) : ReqReturn :=
  match res with
  | .fuelOut => ⟨none, none, none⟩
  | .earlyRet e => ⟨none, none, some e⟩
  | .success resp =>
    match resp.readErr with
    | some e => ⟨some resp, none, some ("error while reading response body: " ++ e)⟩
    | none =>
      if 400 ≤ resp.statusCode then
        ⟨some resp, some resp.body, some ("HTTP response status: " ++ resp.status)⟩
      else
        ⟨some resp, some resp.body, none⟩

/-- The dump calls performed by `Request` for a given loop outcome
(client.go lines 225-227): exactly one dump, carrying the current value
of the request counter, when the loop broke on a successful send, the
body was read and the debug flag is on; none otherwise. -/
def loopDumps (debug : Bool) (reqNum : Nat) (res : LoopRes) : List Nat :=
  match res with
  | .success resp =>
    match resp.readErr with
    | some _ => []
    | none => if debug then [reqNum] else []
  | _ => []

/-- Fuel-exhaustion marker of a loop outcome (a modeling artifact, see
`LoopRes.fuelOut`). -/
def loopDiverged (res : LoopRes) : Bool :=
  match res with
  | .fuelOut => true
  | _ => false

/-- The `Request` method (client.go lines 157-235).  It defaults the
headers (lines 165-183), constructs the request (lines 186-190, early
return on failure), increments `reqNum` once (line 193), runs the
send-and-retry loop (lines 194-214) during which `currentURL` is set to
the request URL on every iteration (line 196), and finishes as
`loopRet` and `loopDumps` describe. -/
def Request (c : Cli) (header : Option Header) (r : ReqSpec) : ReqTrace :=
  let hdr := ensureHeaders c header
  match r.newReqErr with
  | some e => ⟨⟨none, none, some e⟩, 0, [], [], c, hdr, false⟩
  | none =>
    let c1 : Cli := { c with reqNum := c.reqNum + 1 }
    let lt := requestLoop c1 r.tr 1 (c1.reqTries + 1)
    ⟨loopRet lt.out, lt.attempts, lt.handlerCalls,
      loopDumps c1.debug c1.reqNum lt.out,
      { c1 with currentURL := some r.u }, hdr, loopDiverged lt.out⟩

/-- A sequence of logical requests issued one after the other on the same
client (headers omitted: they do not influence the request counter or
the dumps).  Returns the final client state and the concatenated list of
dump-file numbers. -/
def runRequests : Cli → List ReqSpec → Cli × List Nat
  | c, [] => (c, [])
  | c, r :: rs =>
    let t := Request c none r
    ((runRequests t.cli rs).1, t.dumps ++ (runRequests t.cli rs).2)

/-- ASCII letters and digits: the character class of the extension regex
at client.go line 301. -/
def isAlnumAscii (ch : Char) : Bool :=
  (("a".front ≤ ch) && (ch ≤ "z".front)) ||
  (("A".front ≤ ch) && (ch ≤ "Z".front)) ||
  (("0".front ≤ ch) && (ch ≤ "9".front))

/-- The regex match of client.go line 301: the path ends in a dot
followed by one or more ASCII alphanumerics. -/
def hasExt (s : String) : Bool :=
  let r := s.data.reverse
  match r.dropWhile isAlnumAscii with
  | c :: _ => (c == ".".front) && !(r.takeWhile isAlnumAscii).isEmpty
  | _ => false

/-- The extension table of the Go mime package (mime/type.go,
builtinTypesLower), grouped by media type, each extension list given in
the sorted order in which `mime.ExtensionsByType` returns it.  System
tables can add further extensions on some hosts; for `image/jpeg` those
additions (such as `.jfif` and `.jpe`) sort before `.jpg`, so the last
element stays `.jpg`. -/
def mimeExtTable : List (String × List String) :=
  [("application/json", [".json"]), ("application/pdf", [".pdf"]),
   ("application/wasm", [".wasm"]), ("image/avif", [".avif"]),
   ("image/gif", [".gif"]), ("image/jpeg", [".jpeg", ".jpg"]),
   ("image/png", [".png"]), ("image/svg+xml", [".svg"]),
   ("image/webp", [".webp"]), ("text/css", [".css"]),
   ("text/html", [".htm", ".html"]), ("text/javascript", [".js", ".mjs"]),
   ("text/xml", [".xml"])]

/-- Replacement of every non-overlapping occurrence of a pattern, on
character lists, with explicit fuel for structural recursion; the
semantics of Go `strings.ReplaceAll` for a nonempty pattern when the
fuel is at least the length of the subject. -/
def replaceAllAux (pat rep : List Char) : Nat → List Char → List Char
  | _, [] => []
  | 0, l => l
  | fuel + 1, c :: rest =>
    if pat.isPrefixOf (c :: rest) && !pat.isEmpty then
      rep ++ replaceAllAux pat rep fuel ((c :: rest).drop pat.length)
    else
      c :: replaceAllAux pat rep fuel rest

/-- Go `strings.ReplaceAll` on strings (for a nonempty pattern). -/
def replaceAllStr (s pat rep : String) : String :=
  ⟨replaceAllAux pat.data rep.data s.data.length s.data⟩

/-- ASCII lowercasing of one character, as Go `strings.ToLower` acts on
the ASCII media-type names involved here. -/
def lowerAscii (c : Char) : Char :=
  if ("A".front ≤ c) && (c ≤ "Z".front) then Char.ofNat (c.toNat + 32) else c

/-- Go `mime.ExtensionsByType`: parse the media type (take the part
before the first semicolon, trim surrounding whitespace, lowercase) and
look up its sorted extension list.  Go returns a pair of a list and an
error; `GetFile` treats a parse error and an empty list identically
(`err != nil || len(fExtArr) == 0`, client.go line 306), so the
embedding returns just the list, empty on parse failure or unknown
type. -/
def goExtensionsByType (typ : String) : List String :=
  let beforeSemi := typ.data.takeWhile (fun c => !(c == ";".front))
  let trimmed := ((beforeSemi.dropWhile Char.isWhitespace).reverse.dropWhile Char.isWhitespace).reverse
  let justType : String := ⟨trimmed.map lowerAscii⟩
  match mimeExtTable.find? (fun p => p.1 == justType) with
  | some p => p.2
  | none => []

/-- Go `strings.HasSuffix`: the second string is a suffix of the
first. -/
def strEndsWith (s suffix : String) : Bool :=
  suffix.data.isSuffixOf s.data

/-- The extension-derivation step of `GetFile` (client.go lines 295-311),
applied to the destination path after the `filepath.Abs` normalization
of lines 296-300, which leaves an absolute path unchanged (the claims
use absolute paths).  When the path already matches the extension regex,
the result is the pair of the empty extension and the unchanged path;
otherwise the Content-Type of the response, with `/jpg` replaced by
`/jpeg` (line 303), is resolved through `mime.ExtensionsByType`, an
empty result is an error (lines 306-308), and otherwise the LAST
returned extension is appended to the path (lines 309-310). -/
def fileExtCalc (resp : Response) (fPath : String) : Except String (String × String) :=
  if hasExt fPath then .ok ("", fPath)
  else
    let cType := replaceAllStr resp.contentType "/jpg" "/jpeg"
    match (goExtensionsByType cType).getLast? with
    | none => .error ("unable to determine file extension for content type " ++ cType)
    | some fExt => .ok (fExt, fPath ++ fExt)

/-- Result of the disk-writing part of `GetFile`: the returned value
(first component: the derived extension Go returns; second component:
the path handed to `os.Create`) or the returned error, together with the
error-level log lines emitted. -/
structure GetFileOut where
  res : Except String (String × String)
  log : List String

/-- The part of `GetFile` that runs after a successful `Request`
(client.go lines 295-327): derive the extension; create the destination
file (`createErr` models the outcome of `os.Create` at line 314, whose
failure is returned); write the body (`writeErr` models the outcome of
`f.Write` at line 322, whose failure is only logged, line 323); return
the derived extension and a nil error (line 326). -/
def getFilePost (resp : Response) (fPath : String)
    (createErr writeErr : Option String) : GetFileOut :=
  match fileExtCalc resp fPath with
  | .error e => ⟨.error e, []⟩
  | .ok (fExt, fp) =>
    match createErr with
    | some e => ⟨.error ("error creating file " ++ fp ++ ": " ++ e), []⟩
    | none =>
      match writeErr with
      | some e => ⟨.ok (fExt, fp), ["failed to write to file: " ++ e]⟩
      | none => ⟨.ok (fExt, fp), []⟩

/-!
Concrete values used by the witnesses and counterexamples below.
-/

/-- A 200 response with a readable body. -/
def respOk : Response := ⟨200, "200 OK", "text/html", "hello", none⟩

/-- A 500 response with a readable body. -/
def resp500 : Response := ⟨500, "500 Internal Server Error", "", "oops", none⟩

/-- A 404 response with a readable body. -/
def resp404 : Response := ⟨404, "404 Not Found", "", "missing", none⟩

/-- A 200 response whose Content-Type is image/jpeg. -/
def respJpeg : Response := ⟨200, "200 OK", "image/jpeg", "IMG", none⟩

/-- A 200 response whose Content-Type is the nonstandard image/jpg. -/
def respJpg : Response := ⟨200, "200 OK", "image/jpg", "IMG", none⟩

/-- A 200 response whose Content-Type is image/png. -/
def respPng : Response := ⟨200, "200 OK", "image/png", "IMG", none⟩

/-- A 200 response whose Content-Type resolves to no known extension. -/
def respWeird : Response := ⟨200, "200 OK", "application/x-unknown", "DATA", none⟩

/-- A client as `New` builds it (reqTries 10, client.go line 433), with
no error handler and debugging off. -/
def cliPlain : Cli := ⟨false, 10, "UA", none, 0, none⟩

/-- A client as `New` builds it, with no error handler and debugging
on. -/
def cliDebug : Cli := ⟨true, 10, "UA", none, 0, none⟩

/-- A handler that always returns success. -/
def okHandler : Handler := fun _ _ => none

/-- A client with two allowed attempts and an always-succeeding
handler. -/
def cliTries2H : Cli := ⟨false, 2, "UA", some okHandler, 0, none⟩

/-- A client with three allowed attempts and an always-succeeding
handler. -/
def cliTries3H : Cli := ⟨false, 3, "UA", some okHandler, 0, none⟩

/-- A handler that fails on the first attempt. -/
def failAt1Handler : Handler := fun n _ => if n = 1 then some "handler boom" else none

/-- A client whose handler fails on the first attempt. -/
def cliHandlerFails : Cli := ⟨false, 10, "UA", some failAt1Handler, 0, none⟩

/-- A request whose every attempt fails, with distinct errors telling
the attempts apart. -/
def rAllFailEnum : ReqSpec :=
  ⟨"http://example.com/", none, fun n => .err ("transport error " ++ toString n)⟩

/-- A request whose every attempt fails with the same transport error. -/
def rBoom : ReqSpec := ⟨"http://example.com/", none, fun _ => .err "connection refused"⟩

/-- A request whose every attempt fails with a cancellation-style
error, as the transport surfaces a canceled context or an expired
deadline. -/
def rCancel : ReqSpec := ⟨"http://example.com/", none, fun _ => .err "context canceled"⟩

/-- A request answered with status 500 on every attempt. -/
def rAlways500 : ReqSpec := ⟨"http://example.com/", none, fun _ => .ok resp500⟩

/-- A request answered with status 404 on every attempt. -/
def rAlways404 : ReqSpec := ⟨"http://example.com/", none, fun _ => .ok resp404⟩

/-- A request failing on the first two attempts and succeeding on the
third. -/
def rFail2Ok3 : ReqSpec :=
  ⟨"http://example.com/", none, fun n => if n < 3 then .err "connection refused" else .ok respOk⟩

/-- A request succeeding on the first attempt. -/
def rOk : ReqSpec := ⟨"http://example.com/", none, fun _ => .ok respOk⟩

/-- A request failing on the first two attempts and answered with
status 404 on the third. -/
def rFail2Then404 : ReqSpec :=
  ⟨"http://example.com/", none, fun n => if n < 3 then .err "connection refused" else .ok resp404⟩

end Aghpu

namespace Aghpu.Conc

/-!
An interleaving model for two logical requests running concurrently on
one `Cli`, for the claims about error-handler mutual exclusion.  The
`Cli` struct (client.go lines 26-39) contains no mutex and no
handler-active flag, and the handler call at line 210 is an ordinary
function call, so nothing in the code orders the two executions: any
interleaving of their atomic actions is possible, and a thread never
waits on the state of the other.
-/

/-- One atomic action of a thread executing the failure path of
`Request`: a failing send (lines 197-203), the entry into the
caller-supplied handler call (line 210 begins), the return from that
call, and a successful send (line 200). -/
inductive CAct where
  | attemptFail
  | handlerEnter
  | handlerExit
  | attemptOk
deriving DecidableEq

/-- The action sequence of one logical request whose first attempt fails,
whose handler returns success, and whose second attempt succeeds. -/
def failRecoverProg : List CAct :=
  [.attemptFail, .handlerEnter, .handlerExit, .attemptOk]

/-- Joint state of two threads running `Request` on the same client:
the remaining actions of each, and whether each is currently inside its
error-handler invocation. -/
structure CState where
  prog0 : List CAct
  prog1 : List CAct
  inH0 : Bool
  inH1 : Bool
deriving DecidableEq

/-- Effect of one action on the in-handler flag of its thread. -/
def applyAct (inH : Bool) (a : CAct) : Bool :=
  match a with
  | .handlerEnter => true
  | .handlerExit => false
  | _ => inH

/-- One scheduler step: the chosen thread (false for the first, true for
the second) executes its next action.  There is no conditional on the
state of the other thread: the code has no lock to block on and no
conflict check to fail on. -/
def step (s : CState) (t : Bool) : CState :=
  if t then
    match s.prog1 with
    | [] => s
    | a :: rest => { s with prog1 := rest, inH1 := applyAct s.inH1 a }
  else
    match s.prog0 with
    | [] => s
    | a :: rest => { s with prog0 := rest, inH0 := applyAct s.inH0 a }

/-- Initial state: both logical requests about to run the
fail-recover-succeed sequence, neither inside a handler. -/
def init : CState := ⟨failRecoverProg, failRecoverProg, false, false⟩

/-- Execute a schedule, one chosen thread per entry. -/
def run (sched : List Bool) : CState := sched.foldl step init

/-- Both threads are inside their error-handler invocation at once. -/
def bothInHandler (s : CState) : Bool := s.inH0 && s.inH1

end Aghpu.Conc

namespace Aghpu

/-!
Helper lemmas, shared by the claim theorems below.
-/

/-- Go Header.Get after Set of the same key reads the written value. -/
theorem hGet_hSet_same (h : Header) (k v : String) : hGet (hSet h k v) k = v := by
  induction h with
  | nil => simp [hSet, hGet]
  | cons p rest ih =>
    obtain ⟨k1, vs⟩ := p
    by_cases hk : k1 = k
    · subst hk
      simp [hSet, hGet]
    · simp [hSet, hGet, hk, ih]

/-- Go Header.Get after Set of a different key is unchanged. -/
theorem hGet_hSet_other (h : Header) (k v key : String) (hne : key ≠ k) :
    hGet (hSet h k v) key = hGet h key := by
  have hne2 : k ≠ key := fun hx => hne hx.symm
  induction h with
  | nil => simp [hSet, hGet, hne2]
  | cons p rest ih =>
    obtain ⟨k1, vs⟩ := p
    by_cases hk : k1 = k
    · subst hk
      simp [hSet, hGet, hne2]
    · by_cases h2 : k1 = key <;> simp [hSet, hGet, hk, h2, hne, ih]

/-- Reading a header after one conditional defaulting step. -/
theorem hGet_setDefault (h : Header) (k v key : String) :
    hGet (setDefault h k v) key =
      if key = k ∧ hGet h k = "" then v else hGet h key := by
  by_cases hc : hGet h k = "" <;> by_cases hk : key = k <;>
    simp [setDefault, hc, hk, hGet_hSet_same, hGet_hSet_other]


/-- When every attempt fails and no handler is configured, the loop from
attempt `tryN` runs the remaining budget and returns the error of the
last allowed attempt, calling no handler. -/
theorem requestLoop_allFail_noH (c : Cli) (tr : Transport) (e : Nat → String)
    (hH : c.reqErrH = none) (hT : ∀ n, tr n = .err (e n)) :
    ∀ fuel tryN, tryN ≤ c.reqTries → c.reqTries - tryN < fuel →
      requestLoop c tr tryN fuel =
        ⟨.earlyRet (e c.reqTries), c.reqTries - tryN + 1, []⟩ := by
  intro fuel
  induction fuel with
  | zero =>
    intro tryN _ h2
    omega
  | succ fuel ih =>
    intro tryN h1 h2
    by_cases hEq : tryN = c.reqTries
    · subst hEq
      simp [requestLoop, hT c.reqTries]
    · have hrec := ih (tryN + 1) (by omega) (by omega)
      have harith : c.reqTries - (tryN + 1) + 1 + 1 = c.reqTries - tryN + 1 := by omega
      simp [requestLoop, hT tryN, hH, hEq, hrec, harith]

/-- When every attempt fails and the configured handler always returns
success, the loop from attempt `tryN` runs the remaining budget, calls
the handler on every failed attempt except the last allowed one, and
returns the error of the last allowed attempt. -/
theorem requestLoop_allFail_okH (c : Cli) (tr : Transport) (e : Nat → String) (h : Handler)
    (hH : c.reqErrH = some h) (hok : ∀ n s, h n s = none) (hT : ∀ n, tr n = .err (e n)) :
    ∀ fuel tryN, tryN ≤ c.reqTries → c.reqTries - tryN < fuel →
      requestLoop c tr tryN fuel =
        ⟨.earlyRet (e c.reqTries), c.reqTries - tryN + 1,
          List.range' tryN (c.reqTries - tryN)⟩ := by
  intro fuel
  induction fuel with
  | zero =>
    intro tryN _ h2
    omega
  | succ fuel ih =>
    intro tryN h1 h2
    by_cases hEq : tryN = c.reqTries
    · subst hEq
      simp [requestLoop, hT c.reqTries]
    · have hrec := ih (tryN + 1) (by omega) (by omega)
      have harith : c.reqTries - (tryN + 1) + 1 + 1 = c.reqTries - tryN + 1 := by omega
      have hrange : List.range' tryN (c.reqTries - tryN) =
          tryN :: List.range' (tryN + 1) (c.reqTries - (tryN + 1)) := by
        have hn : c.reqTries - tryN = (c.reqTries - (tryN + 1)) + 1 := by omega
        rw [hn, List.range'_succ]
      simp [requestLoop, hT tryN, hH, hEq, hok, hrec, harith, hrange]

/-- When the attempts up to `k` fail, the handler keeps approving retries
before `k` and fails at `k`, and `k` is below the budget, the loop from
attempt `tryN ≤ k` stops at attempt `k` with the combined error. -/
theorem requestLoop_handlerFails (c : Cli) (tr : Transport) (e : Nat → String) (h : Handler)
    (k : Nat) (hErr : String)
    (hH : c.reqErrH = some h) (hk2 : k < c.reqTries)
    (hT : ∀ n, n ≤ k → tr n = .err (e n))
    (hpre : ∀ n, n < k → h n (e n) = none)
    (hfail : h k (e k) = some hErr) :
    ∀ fuel tryN, tryN ≤ k → k - tryN < fuel →
      requestLoop c tr tryN fuel =
        ⟨.earlyRet (e k ++ ", " ++ hErr), k - tryN + 1,
          List.range' tryN (k - tryN + 1)⟩ := by
  intro fuel
  induction fuel with
  | zero =>
    intro tryN _ h2
    omega
  | succ fuel ih =>
    intro tryN h1 h2
    by_cases hEq : tryN = k
    · subst hEq
      have hne : tryN ≠ c.reqTries := by omega
      simp [requestLoop, hT tryN (by omega), hH, hne, hfail, List.range']
    · have hrec := ih (tryN + 1) (by omega) (by omega)
      have hne : tryN ≠ c.reqTries := by omega
      have harith : k - (tryN + 1) + 1 + 1 = k - tryN + 1 := by omega
      have hrange : List.range' tryN (k - tryN + 1) =
          tryN :: List.range' (tryN + 1) (k - (tryN + 1) + 1) := by
        have hn : k - tryN + 1 = (k - (tryN + 1) + 1) + 1 := by omega
        rw [hn, List.range'_succ]
      simp [requestLoop, hT tryN (by omega), hH, hne, hpre tryN (by omega), hrec, harith, hrange]



/-- C2: when every send attempt fails with a transport error and no
handler is configured (or the configured handler always returns
success), `Request` makes exactly `reqTries` attempts and returns the
error of the last attempt verbatim (client.go lines 193-214). -/
theorem request_exhausts_budget_last_error (c : Cli) (hd : Option Header) (r : ReqSpec)
    (e : Nat → String)
    (h1 : 1 ≤ c.reqTries) (h2 : r.newReqErr = none)
    (h3 : ∀ n, r.tr n = .err (e n))
    (h4 : c.reqErrH = none ∨ ∃ h, c.reqErrH = some h ∧ ∀ n s, h n s = none) :
    (Request c hd r).attempts = c.reqTries ∧
    (Request c hd r).ret = ⟨none, none, some (e c.reqTries)⟩ := by
  have hone : c.reqTries - 1 + 1 = c.reqTries := by omega
  rcases h4 with hH | ⟨h, hH, hok⟩
  · have hloop := requestLoop_allFail_noH { c with reqNum := c.reqNum + 1 } r.tr e hH h3
      (c.reqTries + 1) 1 h1 (by show c.reqTries - 1 < c.reqTries + 1; omega)
    simp [Request, h2, hloop, loopRet, hone]
  · have hloop := requestLoop_allFail_okH { c with reqNum := c.reqNum + 1 } r.tr e h hH hok h3
      (c.reqTries + 1) 1 h1 (by show c.reqTries - 1 < c.reqTries + 1; omega)
    simp [Request, h2, hloop, loopRet, hone]

/-- C2 witness: a client with the default budget of 10 and a transport
failing every attempt with a distinct error makes 10 attempts and
returns the error of attempt 10. -/
theorem request_exhausts_budget_last_error_witness :
    1 ≤ cliPlain.reqTries ∧
    (Request cliPlain none rAllFailEnum).attempts = 10 ∧
    (Request cliPlain none rAllFailEnum).ret =
      ⟨none, none, some ("transport error " ++ toString 10)⟩ := by
  have h := request_exhausts_budget_last_error cliPlain none rAllFailEnum
    (fun n => "transport error " ++ toString n) (by decide) rfl (fun _ => rfl) (Or.inl rfl)
  exact ⟨by decide, h.1, h.2⟩


/-- C6 counterexample: `Request` has no cancellation signal and no
pre-attempt cancellation check; a transport error carrying the canceled
context message is retried like any other error, so a client with the
default budget makes all 10 attempts instead of treating the
cancellation as terminal after the first (and the claimed
zero-attempt early return does not exist: attempts is 10, not 0). -/
theorem request_cancellation_retried_cex :
    (Request cliPlain none rCancel).attempts = 10 ∧
    (Request cliPlain none rCancel).ret.err = some "context canceled" ∧
    (Request cliPlain none rCancel).attempts ≠ 0 ∧
    (Request cliPlain none rCancel).attempts ≠ 1 := by
  exact ⟨rfl, rfl, by decide, by decide⟩

/-- C6 amended: `Request` takes no cancellation or deadline signal; a
cancellation-style error surfaced by the transport is treated like any
other transport error and retried until the budget is exhausted
(client.go lines 157, 195-207: no context parameter and no check of the
error kind). -/
theorem request_no_cancellation_check (c : Cli) (hd : Option Header) (r : ReqSpec)
    (h1 : 1 ≤ c.reqTries) (h2 : r.newReqErr = none) (h3 : c.reqErrH = none)
    (h4 : ∀ n, r.tr n = .err "context canceled") :
    (Request c hd r).attempts = c.reqTries ∧
    (Request c hd r).ret = ⟨none, none, some "context canceled"⟩ := by
  have hone : c.reqTries - 1 + 1 = c.reqTries := by omega
  have hloop := requestLoop_allFail_noH { c with reqNum := c.reqNum + 1 } r.tr
    (fun _ => "context canceled") h3 h4
    (c.reqTries + 1) 1 h1 (by show c.reqTries - 1 < c.reqTries + 1; omega)
  simp [Request, h2, hloop, loopRet, hone]

/-- C6 witness: the amended statement at a concrete client with budget
10 and a transport that always reports a canceled context. -/
theorem request_no_cancellation_check_witness :
    (Request cliDebug none rCancel).attempts = 10 ∧
    (Request cliDebug none rCancel).ret = ⟨none, none, some "context canceled"⟩ := by
  have h := request_no_cancellation_check cliDebug none rCancel
    (by decide) rfl rfl (fun _ => rfl)
  exact ⟨h.1, h.2⟩

/-- C4 counterexample: with a budget of 2 attempts, a transport that
always fails, and a handler that always approves a retry, the handler
runs only after attempt 1: the abort check at client.go line 205 fires
before the handler call at line 209, so no handler invocation follows
the failure of the final attempt 2. -/
theorem request_no_handler_on_final_attempt_cex :
    (Request cliTries2H none rBoom).attempts = 2 ∧
    (Request cliTries2H none rBoom).handlerCalls = [1] ∧
    ¬ (2 ∈ (Request cliTries2H none rBoom).handlerCalls) := by
  exact ⟨rfl, rfl, by decide⟩

/-- C4 amended: on every failed attempt the abort-on-maximum-attempts
check (client.go line 205) is applied before the handler invocation
(line 209); the handler runs exactly on the failed attempts numbered 1
to reqTries - 1, and never after the failure of the final allowed
attempt. -/
theorem request_abort_check_precedes_handler (c : Cli) (hd : Option Header) (r : ReqSpec)
    (e : Nat → String) (h : Handler)
    (h1 : 1 ≤ c.reqTries) (h2 : r.newReqErr = none) (h3 : c.reqErrH = some h)
    (h4 : ∀ n s, h n s = none) (h5 : ∀ n, r.tr n = .err (e n)) :
    (Request c hd r).attempts = c.reqTries ∧
    (Request c hd r).handlerCalls = List.range' 1 (c.reqTries - 1) ∧
    ¬ (c.reqTries ∈ (Request c hd r).handlerCalls) := by
  have hone : c.reqTries - 1 + 1 = c.reqTries := by omega
  have hloop := requestLoop_allFail_okH { c with reqNum := c.reqNum + 1 } r.tr e h h3 h4 h5
    (c.reqTries + 1) 1 h1 (by show c.reqTries - 1 < c.reqTries + 1; omega)
  refine ⟨?_, ?_, ?_⟩
  · simp [Request, h2, hloop, hone]
  · simp [Request, h2, hloop]
  · simp only [Request, h2, hloop]
    simp [List.mem_range'_1]
    omega

/-- C4 witness: with budget 3, an always-failing transport and an
always-approving handler, the handler runs exactly after attempts 1 and
2, and attempt 3 is not followed by a handler invocation. -/
theorem request_abort_check_precedes_handler_witness :
    (Request cliTries3H none rBoom).attempts = 3 ∧
    (Request cliTries3H none rBoom).handlerCalls = [1, 2] ∧
    ¬ (3 ∈ (Request cliTries3H none rBoom).handlerCalls) := by
  have h := request_abort_check_precedes_handler cliTries3H none rBoom
    (fun _ => "connection refused") okHandler (by decide) rfl rfl (fun _ _ => rfl) (fun _ => rfl)
  exact ⟨h.1, h.2.1, h.2.2⟩

/-- C7: when the attempts up to `k` fail, the handler keeps approving
retries before attempt `k` and returns its own error at attempt `k`
(below the budget), `Request` aborts right there: it makes exactly `k`
attempts and returns the original error and the handler error combined
as by `fmt.Errorf("%v, %v", err, hErr)` (client.go lines 209-213). -/
theorem request_handler_failure_aborts (c : Cli) (hd : Option Header) (r : ReqSpec)
    (e : Nat → String) (h : Handler) (k : Nat) (hErr : String)
    (h1 : r.newReqErr = none) (h2 : c.reqErrH = some h) (h3 : 1 ≤ k) (h4 : k < c.reqTries)
    (h5 : ∀ n, n ≤ k → r.tr n = .err (e n)) (h6 : ∀ n, n < k → h n (e n) = none)
    (h7 : h k (e k) = some hErr) :
    (Request c hd r).attempts = k ∧
    (Request c hd r).ret = ⟨none, none, some (e k ++ ", " ++ hErr)⟩ := by
  have hone : k - 1 + 1 = k := by omega
  have hloop := requestLoop_handlerFails { c with reqNum := c.reqNum + 1 } r.tr e h k hErr
    h2 h4 h5 h6 h7 (c.reqTries + 1) 1 h3 (by show k - 1 < c.reqTries + 1; omega)
  simp [Request, h1, hloop, loopRet, hone]

/-- C7 witness: a handler that fails on the first attempt aborts the
request after exactly one attempt with the combined error, although
nine attempts of the budget remain. -/
theorem request_handler_failure_aborts_witness :
    (Request cliHandlerFails none rBoom).attempts = 1 ∧
    (Request cliHandlerFails none rBoom).ret =
      ⟨none, none, some "connection refused, handler boom"⟩ := by
  have h := request_handler_failure_aborts cliHandlerFails none rBoom
    (fun _ => "connection refused") failAt1Handler 1 "handler boom"
    rfl rfl (by decide) (by decide) (fun n _ => rfl)
    (fun n hn => by
      have hz : n = 0 := by omega
      subst hz
      rfl) rfl
  exact ⟨h.1, h.2⟩

/-- C3 counterexample: a transport that answers status 500 on every
attempt makes `Request` return after exactly one attempt with the
status error (response and body retained), rather than retrying the
status failure up to the budget of 10. -/
theorem request_status_error_not_retried_cex :
    (Request cliPlain none rAlways500).attempts = 1 ∧
    (Request cliPlain none rAlways500).ret =
      ⟨some resp500, some "oops", some "HTTP response status: 500 Internal Server Error"⟩ ∧
    (Request cliPlain none rAlways500).attempts ≠ cliPlain.reqTries := by
  exact ⟨rfl, by decide, by decide⟩

/-- When the attempts before `k` fail with transport errors (retried,
with no handler or an always-approving one) and the send of attempt
`k ≤ reqTries` succeeds, the loop from attempt `tryN ≤ k` breaks at
attempt `k` with that response, after exactly the attempts up to `k`. -/
theorem requestLoop_failThenOk (c : Cli) (tr : Transport) (e : Nat → String)
    (resp : Response) (k : Nat)
    (hk : k ≤ c.reqTries)
    (hT : ∀ n, n < k → tr n = .err (e n)) (hOk : tr k = .ok resp)
    (hH : c.reqErrH = none ∨ ∃ h, c.reqErrH = some h ∧ ∀ n s, h n s = none) :
    ∀ fuel tryN, tryN ≤ k → k - tryN < fuel →
      (requestLoop c tr tryN fuel).out = .success resp ∧
      (requestLoop c tr tryN fuel).attempts = k - tryN + 1 := by
  intro fuel
  induction fuel with
  | zero =>
    intro tryN _ h2
    omega
  | succ fuel ih =>
    intro tryN h1 h2
    by_cases hEq : tryN = k
    · subst hEq
      simp [requestLoop, hOk]
    · have hrec := ih (tryN + 1) (by omega) (by omega)
      have hne : tryN ≠ c.reqTries := by omega
      have hfail := hT tryN (by omega)
      have harith : k - (tryN + 1) + 1 + 1 = k - tryN + 1 := by omega
      rcases hH with hHn | ⟨h, hHs, hok⟩
      · simp [requestLoop, hfail, hne, hHn, hrec.1, hrec.2, harith]
      · simp [requestLoop, hfail, hne, hHs, hok, hrec.1, hrec.2, harith]

/-- C3 amended: for every attempt whose transport send succeeds with a
status code of at least 400 - whether it is the first attempt or one
reached after transport-error retries - the retry loop breaks at once
(it only retries transport errors, client.go lines 199-201): the
request ends after exactly that attempt, the status is surfaced as the
error with the response and its body returned alongside
(lines 230-232), and the transaction is still dumped when debugging is
on (lines 225-227). -/
theorem request_status_error_after_transport_retries (c : Cli) (hd : Option Header)
    (r : ReqSpec) (e : Nat → String) (resp : Response) (k : Nat)
    (h0 : 1 ≤ k) (hk : k ≤ c.reqTries) (h1 : r.newReqErr = none)
    (hT : ∀ n, n < k → r.tr n = .err (e n)) (hOk : r.tr k = .ok resp)
    (h3 : resp.readErr = none) (h4 : 400 ≤ resp.statusCode)
    (hH : c.reqErrH = none ∨ ∃ h, c.reqErrH = some h ∧ ∀ n s, h n s = none) :
    (Request c hd r).attempts = k ∧
    (Request c hd r).ret =
      ⟨some resp, some resp.body, some ("HTTP response status: " ++ resp.status)⟩ ∧
    (c.debug = true → (Request c hd r).dumps = [c.reqNum + 1]) := by
  have hone : k - 1 + 1 = k := by omega
  have hloop := requestLoop_failThenOk { c with reqNum := c.reqNum + 1 } r.tr e resp k
    hk hT hOk hH (c.reqTries + 1) 1 h0 (by show k - 1 < c.reqTries + 1; omega)
  refine ⟨?_, ?_, ?_⟩
  · simp [Request, h1, hloop.2, hone]
  · simp [Request, h1, hloop.1, loopRet, h3, h4]
  · intro hdbg
    simp only [Request, h1]
    rw [hloop.1]
    simp [loopDumps, h3, hdbg]

/-- C3 witness: two transport failures followed by a 404 on the third
attempt of a debugging client: the 404 ends the request right there
(attempt 3 of a budget of 10), with the response, the body, and one
dump file. -/
theorem request_status_error_after_transport_retries_witness :
    (Request cliDebug none rFail2Then404).attempts = 3 ∧
    (Request cliDebug none rFail2Then404).ret =
      ⟨some resp404, some resp404.body, some ("HTTP response status: " ++ resp404.status)⟩ ∧
    (Request cliDebug none rFail2Then404).dumps = [1] := by
  have h := request_status_error_after_transport_retries cliDebug none rFail2Then404
    (fun _ => "connection refused") resp404 3 (by decide) (by decide) rfl
    (fun n hn => by
      show (if n < 3 then DoResult.err "connection refused" else DoResult.ok resp404) =
        DoResult.err "connection refused"
      rw [if_pos hn])
    (by rfl) rfl (by decide) (Or.inl rfl)
  exact ⟨h.1, h.2.1, h.2.2 rfl⟩


/-- Every dump number recorded for a loop outcome equals the current
value of the request counter. -/
theorem loopDumps_mem (dbg : Bool) (n : Nat) (res : LoopRes) :
    ∀ d ∈ loopDumps dbg n res, d = n := by
  intro d hd
  rcases res with e | resp | _
  · simp [loopDumps] at hd
  · rcases hre : resp.readErr with _ | e
    · cases dbg
      · simp [loopDumps, hre] at hd
      · simp [loopDumps, hre] at hd
        exact hd
    · simp [loopDumps, hre] at hd
  · simp [loopDumps] at hd

/-- At most one dump is written per loop outcome. -/
theorem loopDumps_length (dbg : Bool) (n : Nat) (res : LoopRes) :
    (loopDumps dbg n res).length ≤ 1 := by
  rcases res with e | resp | _
  · simp [loopDumps]
  · rcases hre : resp.readErr with _ | e
    · cases dbg <;> simp [loopDumps, hre]
    · simp [loopDumps, hre]
  · simp [loopDumps]

/-- A list of at most one element is strictly sorted. -/
theorem pairwise_of_length_le_one {l : List Nat} (h : l.length ≤ 1) :
    l.Pairwise (fun a b => a < b) := by
  match l, h with
  | [], _ => exact List.Pairwise.nil
  | [a], _ => simp
  | a :: b :: t, h => simp at h

/-- `Request` advances the request counter by exactly one per logical
request that passes construction (client.go line 193). -/
theorem Request_reqNum_inc (c : Cli) (hd : Option Header) (r : ReqSpec)
    (h : r.newReqErr = none) : (Request c hd r).cli.reqNum = c.reqNum + 1 := by
  simp [Request, h]

/-- Every dump of one `Request` call carries the incremented counter. -/
theorem Request_dumps_mem (c : Cli) (hd : Option Header) (r : ReqSpec) :
    ∀ d ∈ (Request c hd r).dumps, d = c.reqNum + 1 := by
  rcases hr : r.newReqErr with _ | e
  · simp only [Request, hr]
    exact loopDumps_mem _ _ _
  · simp [Request, hr]

/-- One `Request` call writes at most one dump file. -/
theorem Request_dumps_length (c : Cli) (hd : Option Header) (r : ReqSpec) :
    (Request c hd r).dumps.length ≤ 1 := by
  rcases hr : r.newReqErr with _ | e
  · simp only [Request, hr]
    exact loopDumps_length _ _ _
  · simp [Request, hr]

/-- Facts about a sequence of logical requests on one client: the
counter advances by one per request, every dump number is above the
counter before the sequence and at most the counter after it, and the
dump numbers are strictly increasing. -/
theorem runRequests_facts : ∀ (rs : List ReqSpec) (c : Cli),
    (∀ r ∈ rs, r.newReqErr = none) →
    (runRequests c rs).1.reqNum = c.reqNum + rs.length ∧
    (∀ d ∈ (runRequests c rs).2, c.reqNum < d ∧ d ≤ (runRequests c rs).1.reqNum) ∧
    (runRequests c rs).2.Pairwise (fun a b => a < b) := by
  intro rs
  induction rs with
  | nil =>
    intro c _
    simp [runRequests]
  | cons r rest ih =>
    intro c hall
    have hr : r.newReqErr = none := hall r (List.mem_cons_self r rest)
    have hrest : ∀ x ∈ rest, x.newReqErr = none := fun x hx => hall x (List.mem_cons_of_mem r hx)
    obtain ⟨ih1, ih2, ih3⟩ := ih (Request c none r).cli hrest
    have hinc := Request_reqNum_inc c none r hr
    have hmem := Request_dumps_mem c none r
    have hlen := Request_dumps_length c none r
    refine ⟨?_, ?_, ?_⟩
    · show (runRequests (Request c none r).cli rest).1.reqNum = c.reqNum + (rest.length + 1)
      rw [ih1, hinc]
      omega
    · intro d hdm
      have hdm2 : d ∈ (Request c none r).dumps ++ (runRequests (Request c none r).cli rest).2 := hdm
      rcases List.mem_append.mp hdm2 with hin1 | hin2
      · have hde := hmem d hin1
        refine ⟨by omega, ?_⟩
        show d ≤ (runRequests (Request c none r).cli rest).1.reqNum
        rw [ih1, hinc]
        omega
      · obtain ⟨hlt, hle⟩ := ih2 d hin2
        rw [hinc] at hlt
        exact ⟨by omega, hle⟩
    · show ((Request c none r).dumps ++ (runRequests (Request c none r).cli rest).2).Pairwise
        (fun a b => a < b)
      rw [List.pairwise_append]
      refine ⟨pairwise_of_length_le_one hlen, ih3, ?_⟩
      intro a ha b hb
      have ha2 := hmem a ha
      obtain ⟨hlt, _⟩ := ih2 b hb
      rw [hinc] at hlt
      omega

/-- C5 counterexample: a debugging client whose request needs three
attempts (two transport failures, then success) advances the request
counter by one, not three, and writes exactly one dump file, not three:
the counter at client.go line 193 is incremented once per logical
request, before the attempt loop, and the dump at line 226 runs once,
after the loop. -/
theorem request_counter_not_per_attempt_cex :
    (Request cliDebug none rFail2Ok3).attempts = 3 ∧
    (Request cliDebug none rFail2Ok3).cli.reqNum = 1 ∧
    (Request cliDebug none rFail2Ok3).dumps = [1] ∧
    ¬ ((Request cliDebug none rFail2Ok3).dumps.length = 3) := by
  exact ⟨rfl, rfl, rfl, by decide⟩

/-- C5 amended: the request counter advances by exactly one per logical
request (not per attempt); each logical request writes at most one dump
file, named by the incremented counter; and across the lifetime of a
client the dump numbers are strictly increasing, hence pairwise
distinct and never reused. -/
theorem request_counter_once_per_logical_request :
    (∀ (c : Cli) (hd : Option Header) (r : ReqSpec), r.newReqErr = none →
      (Request c hd r).cli.reqNum = c.reqNum + 1) ∧
    (∀ (c : Cli) (hd : Option Header) (r : ReqSpec),
      (Request c hd r).dumps.length ≤ 1 ∧
      ∀ d ∈ (Request c hd r).dumps, d = c.reqNum + 1) ∧
    (∀ (c : Cli) (rs : List ReqSpec), (∀ r ∈ rs, r.newReqErr = none) →
      (runRequests c rs).1.reqNum = c.reqNum + rs.length ∧
      (runRequests c rs).2.Pairwise (fun a b => a < b)) := by
  refine ⟨Request_reqNum_inc, ?_, ?_⟩
  · intro c hd r
    exact ⟨Request_dumps_length c hd r, Request_dumps_mem c hd r⟩
  · intro c rs hall
    exact ⟨(runRequests_facts rs c hall).1, (runRequests_facts rs c hall).2.2⟩

/-- C5 witness: two logical requests on a fresh debugging client (the
first taking three attempts) leave the counter at 2 and produce
strictly increasing dump numbers. -/
theorem request_counter_once_per_logical_request_witness :
    (runRequests cliDebug [rFail2Ok3, rOk]).1.reqNum = 2 ∧
    (runRequests cliDebug [rFail2Ok3, rOk]).2.Pairwise (fun a b => a < b) := by
  have h := request_counter_once_per_logical_request.2.2 cliDebug [rFail2Ok3, rOk]
    (by
      intro r hrm
      rcases List.mem_cons.mp hrm with h1 | h2
      · rw [h1]
        rfl
      · rcases List.mem_cons.mp h2 with h3 | h4
        · rw [h3]
          rfl
        · simp at h4)
  exact ⟨h.1, h.2⟩


/-- C8 counterexample: a caller that sets the User-Agent header name
with an empty value sees the engine overwrite it: `Get` returns the
empty string for it (client.go line 169), so the default is applied even
though the name was set, and the caller-supplied value is replaced. -/
theorem ensureHeaders_overwrites_empty_value_cex :
    (("User-Agent", [""]) ∈ ([("User-Agent", [""])] : Header)) ∧
    ensureHeaders cliPlain (some [("User-Agent", [""])]) =
      [("User-Agent", ["UA"]), ("Accept", ["*/*"]),
       ("Accept-Language", [defaultAcceptLanguage]), ("Cache-Control", ["max-age=0"])] ∧
    ¬ (hGet (ensureHeaders cliPlain (some [("User-Agent", [""])])) "User-Agent" = "") := by
  exact ⟨by decide, by rfl, by decide⟩

/-- C8 amended: each of the four default headers is applied exactly when
`Get` returns the empty string for its name in the caller headers (the
name is absent, has no values, or its first value is empty); a caller
header whose first value is nonempty is never changed, and headers
under any other name than the four defaults and Referer are read back
unchanged (client.go lines 165-183). -/
theorem ensureHeaders_defaults (c : Cli) (h : Header) :
    (hGet (ensureHeaders c (some h)) "User-Agent" =
      if hGet h "User-Agent" = "" then c.userAgent else hGet h "User-Agent") ∧
    (hGet (ensureHeaders c (some h)) "Accept" =
      if hGet h "Accept" = "" then "*/*" else hGet h "Accept") ∧
    (hGet (ensureHeaders c (some h)) "Accept-Language" =
      if hGet h "Accept-Language" = "" then defaultAcceptLanguage
      else hGet h "Accept-Language") ∧
    (hGet (ensureHeaders c (some h)) "Cache-Control" =
      if hGet h "Cache-Control" = "" then "max-age=0" else hGet h "Cache-Control") ∧
    (∀ k, k ≠ "User-Agent" → k ≠ "Accept" → k ≠ "Accept-Language" →
      k ≠ "Cache-Control" → k ≠ "Referer" →
      hGet (ensureHeaders c (some h)) k = hGet h k) := by
  rcases hcur : c.currentURL with _ | cu
  · refine ⟨?_, ?_, ?_, ?_, ?_⟩ <;>
      simp [ensureHeaders, hcur, hGet_setDefault]
    intro k h1 h2 h3 h4 _
    simp [hGet_setDefault, h1, h2, h3, h4]
  · refine ⟨?_, ?_, ?_, ?_, ?_⟩ <;>
      simp [ensureHeaders, hcur, hGet_setDefault]
    intro k h1 h2 h3 h4 h5
    simp [hGet_setDefault, h1, h2, h3, h4, h5]

/-- C8 witness: a caller-set Accept header survives unchanged, the unset
User-Agent receives the default, and an unrelated header name reads
back unchanged. -/
theorem ensureHeaders_defaults_witness :
    hGet (ensureHeaders cliPlain (some [("Accept", ["text/html"])])) "Accept" = "text/html" ∧
    hGet (ensureHeaders cliPlain (some [("Accept", ["text/html"])])) "User-Agent" = "UA" ∧
    hGet (ensureHeaders cliPlain (some [("Accept", ["text/html"])])) "X-Custom" = "" := by
  have h := ensureHeaders_defaults cliPlain [("Accept", ["text/html"])]
  refine ⟨?_, ?_, ?_⟩
  · rw [h.2.1]
    decide
  · rw [h.1]
    decide
  · rw [h.2.2.2.2 "X-Custom" (by decide) (by decide) (by decide) (by decide) (by decide)]
    decide


/-- C9 counterexample: with a destination path lacking an extension and
a response Content-Type of image/jpeg, `GetFile` stores the file under
a path ending in `.jpg`, not `.jpeg`: line 309 takes the LAST entry of
the sorted extension list of Go mime, which for image/jpeg is `.jpg`;
the nonstandard image/jpg is normalized (line 303) and yields the same
`.jpg` path. -/
theorem getFile_jpeg_extension_cex :
    (getFilePost respJpeg "/tmp/photo" none none).res = .ok (".jpg", "/tmp/photo.jpg") ∧
    strEndsWith "/tmp/photo.jpg" ".jpeg" = false ∧
    (getFilePost respJpg "/tmp/photo" none none).res = .ok (".jpg", "/tmp/photo.jpg") := by
  exact ⟨rfl, rfl, rfl⟩

/-- C9 amended: for a destination path without an extension, a
Content-Type of image/jpeg or image/jpg (the latter normalized to the
former by line 303) makes `GetFile` return the extension `.jpg` and
store the file under the path extended by `.jpg` (the last entry of
the sorted Go mime extension list for image/jpeg); and whenever the
extension lookup comes back empty, `GetFile` returns an error. -/
theorem getFile_extension_amended :
    (∀ (fPath : String) (w : Option String), hasExt fPath = false →
      (getFilePost respJpeg fPath none w).res = .ok (".jpg", fPath ++ ".jpg") ∧
      (getFilePost respJpg fPath none w).res = .ok (".jpg", fPath ++ ".jpg")) ∧
    (∀ (resp : Response) (fPath : String) (cw w : Option String), hasExt fPath = false →
      goExtensionsByType (replaceAllStr resp.contentType "/jpg" "/jpeg") = [] →
      ∃ e, (getFilePost resp fPath cw w).res = .error e) := by
  constructor
  · intro fPath w hne
    have h1 : fileExtCalc respJpeg fPath = .ok (".jpg", fPath ++ ".jpg") := by
      simp [fileExtCalc, hne]
      rfl
    have h2 : fileExtCalc respJpg fPath = .ok (".jpg", fPath ++ ".jpg") := by
      simp [fileExtCalc, hne]
      rfl
    rcases w with _ | e <;> simp [getFilePost, h1, h2]
  · intro resp fPath cw w hne hempty
    have h1 : fileExtCalc resp fPath =
        .error ("unable to determine file extension for content type " ++
          replaceAllStr resp.contentType "/jpg" "/jpeg") := by
      simp [fileExtCalc, hne, hempty]
    exact ⟨"unable to determine file extension for content type " ++
      replaceAllStr resp.contentType "/jpg" "/jpeg", by simp [getFilePost, h1]⟩

/-- C9 witness: the amended statement at the concrete path /a/b for
both jpeg Content-Types, and the error case for an unknown type. -/
theorem getFile_extension_amended_witness :
    (getFilePost respJpeg "/a/b" none none).res = .ok (".jpg", "/a/b.jpg") ∧
    (getFilePost respJpg "/a/b" none none).res = .ok (".jpg", "/a/b.jpg") ∧
    ∃ e, (getFilePost respWeird "/a/b" none none).res = .error e := by
  have h1 := getFile_extension_amended.1 "/a/b" none (by decide)
  have h2 := getFile_extension_amended.2 respWeird "/a/b" none none (by decide) (by rfl)
  exact ⟨h1.1, h1.2, h2⟩

/-- C10: once the destination file is created, a failure of the body
write is only logged (client.go lines 322-324): the result of `GetFile`
is the same as with a clean write, so the derived extension and a nil
error are returned and the caller cannot tell a partial file from a
complete one; the failure is recorded in the error log alone. -/
theorem getFile_write_error_swallowed (resp : Response) (fPath : String)
    (p : String × String) (e : String)
    (h : (getFilePost resp fPath none none).res = .ok p) :
    (getFilePost resp fPath none (some e)).res = .ok p ∧
    ("failed to write to file: " ++ e) ∈ (getFilePost resp fPath none (some e)).log := by
  rcases hc : fileExtCalc resp fPath with e2 | q
  · simp [getFilePost, hc] at h
  · obtain ⟨fExt, fp⟩ := q
    simp [getFilePost, hc] at h
    simp [getFilePost, hc, h]

/-- C10 witness: a png download whose write fails still returns the
derived extension with no error, and logs the write failure. -/
theorem getFile_write_error_swallowed_witness :
    (getFilePost respPng "/tmp/pic" none (some "disk full")).res =
      .ok (".png", "/tmp/pic.png") ∧
    ("failed to write to file: " ++ "disk full") ∈
      (getFilePost respPng "/tmp/pic" none (some "disk full")).log := by
  have h := getFile_write_error_swallowed respPng "/tmp/pic" (".png", "/tmp/pic.png")
    "disk full" rfl
  exact ⟨h.1, h.2⟩

end Aghpu

namespace Aghpu.Conc

/-- C1 counterexample: the schedule on which the first request fails its
attempt and enters the handler, and then the second request fails its
attempt and enters the handler, leaves both threads inside their
error-handler invocation at the same time; nothing in the code blocks
the second entry or reports a conflict, because the `Cli` struct
(client.go lines 26-39) has no mutex and no handler-active flag, and
the call at line 210 is unguarded. -/
theorem handler_overlap_cex :
    bothInHandler (run [false, false, true, true]) = true := by
  rfl

/-- C1 amended: the client provides no mutual exclusion for error
handlers: there is an interleaving of two concurrently failing logical
requests on one client under which both error-handler invocations are
active simultaneously, and no waiting or conflict error exists in the
code. -/
theorem handler_no_mutual_exclusion :
    ∃ sched : List Bool, bothInHandler (run sched) = true := by
  exact ⟨[false, true, false, true], by rfl⟩

end Aghpu.Conc
